import Mathlib

/-!
Verification development for the Belfius statement import / invoice matching
core of this repository.

The two modules under verification are the statement parser and index builder
(`apps/invoiceninja/import-statements.js`) and the invoice matcher
(`match-invoices-payments.js`).  JavaScript values are embedded as follows:

* JS numbers are modelled as exact rationals (`ℚ`); every numeric value the
  pipeline manipulates (two-decimal currency amounts, small integer scores,
  integer day counts) is exactly representable, so IEEE rounding is not
  observable in the verified properties.
* nullable / optional JS values are `Option`; JS string falsiness (`""` is
  falsy) is modelled explicitly by the `jsOr*` helpers.
* JS `Date` values are modelled as days-since-epoch integers; `new Date(s)`
  is modelled for the ISO `YYYY-MM-DD` strings this pipeline produces and
  consumes (other shapes yield `none`, i.e. an invalid date).
* `Infinity` (the value `diffDays` returns when a date is missing) is
  modelled as `none` in `Option ℚ`, with the comparison semantics of
  `Infinity` made explicit at each use site.
* the wall clock (`new Date()`, `Date.now()`) is an explicit parameter, and
  the filesystem seen by the importer is an explicit list of existing paths.
-/

/-! ## JS string and number primitives -/

/-- Digit list (most significant first) to natural number. -/
def digitsToNat (l : List Char) : Nat :=
  l.foldl (fun acc c => acc * 10 + (c.toNat - '0'.toNat)) 0

/-- Test whether `needle` is a prefix of `hay` (char lists). -/
def chPre : List Char → List Char → Bool
  | [], _ => true
  | _ :: _, [] => false
  | a :: as, b :: bs => a == b && chPre as bs

/-- Substring containment on char lists, as in JS `String.prototype.includes`. -/
def chContains (needle : List Char) : List Char → Bool
  | [] => chPre needle []
  | h :: t => chPre needle (h :: t) || chContains needle t

/-- JS `hay.includes(needle)`. -/
def strIncludes (hay needle : String) : Bool :=
  chContains needle.data hay.data

/-- JS truthiness for a nullable string: `null`/`undefined` and `""` are falsy. -/
def jsOrNullStr (o : Option String) : Option String :=
  match o with
  | some s => if s = "" then none else some s
  | none => none

/-- JS `a || b` on nullable strings (`""` is falsy and falls through). -/
def jsOrSS (a b : Option String) : Option String :=
  match a with
  | some s => if s = "" then b else some s
  | none => b

/-- JS template interpolation of a nullable string (`null` prints as "null"). -/
def optDisplay (o : Option String) : String :=
  o.getD "null"

/-- JS `a || d` on a nullable number (`0` is falsy and falls through). -/
def jsOrQ (a : Option ℚ) (d : ℚ) : ℚ :=
  match a with
  | some x => if x = 0 then d else x
  | none => d

/-- `sanitize` from the matcher: `(str || "").toString().trim()`. -/
def sanitize (o : Option String) : String :=
  (o.getD "").trim

/-- Strip every whitespace character (JS `replace(/\s+/g, "")`). -/
def stripWs (s : String) : String :=
  ⟨s.data.filter (fun c => !c.isWhitespace)⟩

/-- ASCII uppercasing of a string (JS `toUpperCase` on the ASCII subset). -/
def jsToUpper (s : String) : String :=
  ⟨s.data.map Char.toUpper⟩

/-- ASCII lowercasing of a string (JS `toLowerCase` on the ASCII subset). -/
def jsToLower (s : String) : String :=
  ⟨s.data.map Char.toLower⟩

/-- `normalize` from the matcher: trim, drop all whitespace, uppercase. -/
def normalizeStr (o : Option String) : String :=
  jsToUpper (stripWs (sanitize o))

/-- Split a char list on a separator predicate, keeping only the nonempty runs
(the effect of JS `trim().split(/\s+/).filter(Boolean)`); `cur` accumulates the
current run in reverse. -/
def splitRunsAux (p : Char → Bool) : List Char → List Char → List (List Char)
  | [], cur => if cur.isEmpty then [] else [cur.reverse]
  | c :: rest, cur =>
    if p c then
      if cur.isEmpty then splitRunsAux p rest []
      else cur.reverse :: splitRunsAux p rest []
    else splitRunsAux p rest (c :: cur)

/-- Split a char list into the maximal runs of non-separator characters. -/
def splitRuns (p : Char → Bool) (l : List Char) : List (List Char) :=
  splitRunsAux p l []

/-- `tokenize` from the matcher: lowercase, squash every non-`[a-z0-9]` run to a
separator, split into nonempty tokens. -/
def tokenize (o : Option String) : List String :=
  let marked := (sanitize o).data.map (fun c =>
    let lc := c.toLower
    if lc.isLower || lc.isDigit then lc else ' ')
  (splitRuns (fun c => c = ' ') marked).map (fun w => (⟨w⟩ : String))

/-- JS `parseInt(s, 10)`: skip leading whitespace, optional sign, then take the
leading digit run; `NaN` (no digits) is `none`. -/
def jsParseInt (s : String) : Option ℤ :=
  let l := s.data.dropWhile Char.isWhitespace
  let neg := l.head? = some '-'
  let l1 := if l.head? = some '-' ∨ l.head? = some '+' then l.tail else l
  let ds := l1.takeWhile Char.isDigit
  if ds.isEmpty then none
  else some ((if neg then -1 else 1) * (digitsToNat ds : ℤ))

/-- JS `parseInt` applied to a possibly-`undefined` value. -/
def jsParseIntO (o : Option String) : Option ℤ :=
  match o with
  | some s => jsParseInt s
  | none => none

/-- JS `parseFloat`: skip leading whitespace, optional sign, integer digits,
optional `.` plus fraction digits; the rest of the string is ignored.
Exponent notation is not modelled (the pipeline only feeds digit/`.`/`,`
strings to it). `NaN` is `none`. -/
def jsParseFloat (s : String) : Option ℚ :=
  let l := s.data.dropWhile Char.isWhitespace
  let neg := l.head? = some '-'
  let l1 := if l.head? = some '-' ∨ l.head? = some '+' then l.tail else l
  let ip := l1.takeWhile Char.isDigit
  let l2 := l1.drop ip.length
  let fp :=
    match l2.head? with
    | some '.' => l2.tail.takeWhile Char.isDigit
    | _ => []
  if ip.isEmpty ∧ fp.isEmpty then none
  else
    some ((if neg then -1 else 1) *
      ((digitsToNat ip : ℚ) + (digitsToNat fp : ℚ) / (10 : ℚ) ^ fp.length))

/-- JS `Math.round`: half-up, i.e. toward positive infinity on ties. -/
def jsRound (q : ℚ) : ℤ :=
  ⌊q + 1 / 2⌋

/-! ## Date model

`new Date(s)` for the ISO `YYYY-MM-DD` strings this pipeline produces is UTC
midnight of that civil date; two such dates differ by an exact whole number of
days.  We model such a date by its civil day number (Gregorian
days-from-civil, epoch 1970-01-01 = 0) and invalid/absent dates by `none`. -/

def isLeapYear (y : ℤ) : Bool :=
  (y % 4 = 0 && y % 100 ≠ 0) || y % 400 = 0

def daysInMonth (y m : ℤ) : ℤ :=
  if m = 2 then (if isLeapYear y then 29 else 28)
  else if m = 4 ∨ m = 6 ∨ m = 9 ∨ m = 11 then 30
  else 31

/-- Gregorian civil date to days since 1970-01-01. -/
def daysFromCivil (y m d : ℤ) : ℤ :=
  let y1 := if m ≤ 2 then y - 1 else y
  let era := y1.ediv 400
  let yoe := y1 - era * 400
  let mp := if m > 2 then m - 3 else m + 9
  let doy := (153 * mp + 2).ediv 5 + d - 1
  let doe := yoe * 365 + yoe.ediv 4 - yoe.ediv 100 + doy
  era * 146097 + doe - 719468

/-- `parseDate` from the matcher, modelled on the ISO `YYYY-MM-DD` strings the
pipeline produces; any other shape is an invalid date (`none`), as is an
out-of-range month or day (per ES date-string semantics). -/
def parseDate (o : Option String) : Option ℤ :=
  match o with
  | none => none
  | some s =>
    match s.data with
    | [y1, y2, y3, y4, '-', m1, m2, '-', d1, d2] =>
      if y1.isDigit && y2.isDigit && y3.isDigit && y4.isDigit &&
         m1.isDigit && m2.isDigit && d1.isDigit && d2.isDigit then
        let y : ℤ := digitsToNat [y1, y2, y3, y4]
        let m : ℤ := digitsToNat [m1, m2]
        let d : ℤ := digitsToNat [d1, d2]
        if 1 ≤ m ∧ m ≤ 12 ∧ 1 ≤ d ∧ d ≤ daysInMonth y m then
          some (daysFromCivil y m d)
        else none
      else none
    | _ => none

/-- `diffDays` from the matcher: absolute difference in days, `Infinity`
(modelled as `none`) when either date is missing. -/
def diffDays (a b : Option ℤ) : Option ℚ :=
  match a, b with
  | some x, some y => some ((|x - y| : ℤ) : ℚ)
  | _, _ => none

/-- `days > max` with `days` possibly `Infinity` (`none`): `Infinity` exceeds
every finite bound. -/
def daysGt (d : Option ℚ) (m : ℚ) : Bool :=
  match d with
  | some v => v > m
  | none => true

/-! ## Statement parser (`apps/invoiceninja/import-statements.js`)

Regex constants of the source file, modelled as explicit matching functions:
`VALUE_LINE_REGEX`, `ISO_DATE_REGEX`, `BIC_REGEX`, the IBAN-shaped-line test
and the operation-opening pattern.  All lines fed to the parser have been
trimmed and blank-filtered first (as in `parseStatement`). -/

/-- A character admitted by the amount class `[\d.,]`. -/
def amtChar (c : Char) : Bool :=
  c.isDigit || c = '.' || c = ','

/-- Full match of `ISO_DATE_REGEX = /^(\d{2})-(\d{2})-(\d{4})$/`, returning the
`(day, month, year)` captures. -/
def isoDateMatch (s : String) : Option (String × String × String) :=
  match s.data with
  | [a, b, '-', c, d, '-', e, f, g, h] =>
    if a.isDigit && b.isDigit && c.isDigit && d.isDigit &&
       e.isDigit && f.isDigit && g.isDigit && h.isDigit then
      some (⟨[a, b]⟩, ⟨[c, d]⟩, ⟨[e, f, g, h]⟩)
    else none
  | _ => none

/-- `toIsoDate`: reformat a `DD-MM-YYYY` string as `YYYY-MM-DD`; falsy input or
a non-matching string gives `null`. -/
def toIsoDate (dateString : Option String) : Option String :=
  match dateString with
  | none => none
  | some s =>
    if s = "" then none
    else
      match isoDateMatch s with
      | some (day, month, year) => some (year ++ "-" ++ month ++ "-" ++ day)
      | none => none

/-- Continuation of `valueLineMatch` after the date part: `\s+([\d.,]+)\s*([+-])$`. -/
def valueLineTail (day mon : String) (yearMaybe : Option String) (rest : List Char) :
    Option (String × String × Option String × String × Char) :=
  let ws := rest.takeWhile Char.isWhitespace
  if ws.isEmpty then none
  else
    let r1 := rest.drop ws.length
    let amt := r1.takeWhile amtChar
    if amt.isEmpty then none
    else
      let r2 := (r1.drop amt.length).dropWhile Char.isWhitespace
      match r2 with
      | ['+'] => some (day, mon, yearMaybe, ⟨amt⟩, '+')
      | ['-'] => some (day, mon, yearMaybe, ⟨amt⟩, '-')
      | _ => none

/-- Full match of
`VALUE_LINE_REGEX = /^(\d{2})-(\d{2})(?:-(\d{4}))?\s+([\d.,]+)\s*([+-])$/`,
returning the `(day, month, year?, amount, sign)` captures. -/
def valueLineMatch (s : String) : Option (String × String × Option String × String × Char) :=
  match s.data with
  | a :: b :: '-' :: c :: d :: rest =>
    if a.isDigit && b.isDigit && c.isDigit && d.isDigit then
      let day : String := ⟨[a, b]⟩
      let mon : String := ⟨[c, d]⟩
      match rest with
      | '-' :: r1 =>
        match r1 with
        | e :: f :: g :: h :: r2 =>
          if e.isDigit && f.isDigit && g.isDigit && h.isDigit then
            valueLineTail day mon (some ⟨[e, f, g, h]⟩) r2
          else none
        | _ => none
      | _ => valueLineTail day mon none rest
    else none
  | _ => none

/-- Match of the operation-opening pattern `/^(0\d{3})\s+(.+)$/`.  On the
trimmed lines the parser sees, the title is simply the remainder after the
whitespace run; the degenerate all-whitespace-tail backtrack of the regex is
reproduced for fidelity. -/
def opLineMatch (s : String) : Option (String × String) :=
  match s.data with
  | '0' :: b :: c :: d :: rest =>
    if b.isDigit && c.isDigit && d.isDigit then
      let ws := rest.takeWhile Char.isWhitespace
      if ws.isEmpty then none
      else
        let rem := rest.drop ws.length
        if rem.isEmpty then
          if ws.length ≥ 2 then some (⟨['0', b, c, d]⟩, ⟨[ws.getLastD ' ']⟩)
          else none
        else some (⟨['0', b, c, d]⟩, ⟨rem⟩)
    else none
  | _ => none

/-- `BIC_REGEX = /^([A-Z]{4}[A-Z0-9]{2}[A-Z0-9]{2,3})$/` on an already
whitespace-stripped candidate. -/
def bicTest (s : String) : Bool :=
  let l := s.data
  (l.length = 8 || l.length = 9) &&
    (l.take 4).all Char.isUpper &&
    (l.drop 4).all (fun c => c.isUpper || c.isDigit)

/-- `isPotentialIbanLine`: `/^[A-Z]{2}\d{2}/` and length above `IBAN_MIN_LENGTH`. -/
def isPotentialIbanLine (line : String) : Bool :=
  match line.data with
  | a :: b :: c :: d :: _ =>
    a.isUpper && b.isUpper && c.isDigit && d.isDigit && line.length > 14
  | _ => false

/-- JS `line.trim().split(/\s+/)`: words of the trimmed line; an empty string
splits to `[""]`. -/
def jsSplitWs (s : String) : List String :=
  let t := s.trim
  if t = "" then [""]
  else (splitRuns Char.isWhitespace t.data).map (fun w => (⟨w⟩ : String))

/-- Exactly-three-uppercase-letters test (`/^[A-Z]{3}$/`). -/
def isCurrencyCode (s : String) : Bool :=
  s.data.length = 3 && s.data.all Char.isUpper

/-- `parseIbanLine`: recognise an IBAN-shaped detail line, with an optional
trailing three-letter currency code. -/
def parseIbanLine (line : String) : Option (String × Option String) :=
  let compact := stripWs line
  if compact.length < 14 then none
  else
    match compact.data with
    | a :: b :: c :: d :: rest =>
      if a.isUpper && b.isUpper && c.isDigit && d.isDigit &&
         !rest.isEmpty && rest.all (fun ch => ch.isUpper || ch.isDigit) then
        let ms := jsSplitWs line
        if ms.isEmpty then none
        else
          let currencyCandidate := ms.getLastD ""
          if isCurrencyCode currencyCandidate then
            some (⟨compact.data.take (compact.data.length - currencyCandidate.length)⟩,
              some currencyCandidate)
          else some (compact, none)
      else none
    | _ => none

/-- `parseAccountLine`: split the anchor line into words; a trailing
three-letter code is the currency, the rest joined without spaces is the IBAN.
(The throw on `!matches.length` in the source is unreachable: JS `split` never yields
an empty array.) -/
def parseAccountLine (line : String) : String × Option String :=
  let ms := jsSplitWs line
  let currencyCandidate := ms.getLastD ""
  let hasCurrency := isCurrencyCode currencyCandidate
  let ibanParts := String.join (if hasCurrency then ms.dropLast else ms)
  (ibanParts, if hasCurrency then some currencyCandidate else none)

/-- One attempt of the statement-title regex
`/Extrait N°\s+(\d{4})\s*-\s*(\d+)/` anchored at the current position,
returning `(year, number)`. -/
def titleTry (l : List Char) : Option (String × String) :=
  if chPre "Extrait N°".data l then
    let r := l.drop "Extrait N°".data.length
    let ws := r.takeWhile Char.isWhitespace
    if ws.isEmpty then none
    else
      match r.drop ws.length with
      | a :: b :: c :: d :: r2 =>
        if a.isDigit && b.isDigit && c.isDigit && d.isDigit then
          match r2.dropWhile Char.isWhitespace with
          | '-' :: r4 =>
            let num := (r4.dropWhile Char.isWhitespace).takeWhile Char.isDigit
            if num.isEmpty then none
            else some (⟨[a, b, c, d]⟩, ⟨num⟩)
          | _ => none
        else none
      | _ => none
  else none

/-- Unanchored regex search for the statement-title pattern. -/
def titleScan : List Char → Option (String × String)
  | [] => none
  | c :: t =>
    match titleTry (c :: t) with
    | some r => some r
    | none => titleScan t

/-- `parseStatementTitle`, returning `(statementNumber, statementYear)`. -/
def parseStatementTitle (line : Option String) : Option String × Option String :=
  match line with
  | none => (none, none)
  | some l =>
    match titleScan l.data with
    | some (year, number) => (some number, some year)
    | none => (none, none)

/-- One attempt of the balance regex
`/au\s+(\d{2}-\d{2}-\d{4})\s+([\d.,]+)\s*([+-])/` anchored at the current
position, returning `(date, amount, sign)`. -/
def balTry (l : List Char) : Option (String × String × Char) :=
  match l with
  | 'a' :: 'u' :: r =>
    let ws := r.takeWhile Char.isWhitespace
    if ws.isEmpty then none
    else
      match r.drop ws.length with
      | a :: b :: '-' :: c :: d :: '-' :: e :: f :: g :: h :: r2 =>
        if a.isDigit && b.isDigit && c.isDigit && d.isDigit &&
           e.isDigit && f.isDigit && g.isDigit && h.isDigit then
          let ws2 := r2.takeWhile Char.isWhitespace
          if ws2.isEmpty then none
          else
            let r3 := r2.drop ws2.length
            let amt := r3.takeWhile amtChar
            if amt.isEmpty then none
            else
              match (r3.drop amt.length).dropWhile Char.isWhitespace with
              | '+' :: _ => some (⟨[a, b, '-', c, d, '-', e, f, g, h]⟩, ⟨amt⟩, '+')
              | '-' :: _ => some (⟨[a, b, '-', c, d, '-', e, f, g, h]⟩, ⟨amt⟩, '-')
              | _ => none
        else none
      | _ => none
  | _ => none

/-- Unanchored regex search for the balance pattern. -/
def balScan : List Char → Option (String × String × Char)
  | [] => none
  | c :: t =>
    match balTry (c :: t) with
    | some r => some r
    | none => balScan t

/-- Replace the first `,` by `.` (JS `replace(',', '.')`). -/
def replaceFirstComma : List Char → List Char
  | [] => []
  | c :: rest => if c = ',' then '.' :: rest else c :: replaceFirstComma rest

/-- `parseEuropeanNumber`: drop `.` thousands separators and whitespace, turn
the first `,` into a decimal point, `parseFloat`; failures default to `0`. -/
def parseEuropeanNumber (raw : String) : ℚ :=
  if raw = "" then 0
  else
    let cleaned := (raw.data.filter (fun c => c ≠ '.')).filter (fun c => !c.isWhitespace)
    match jsParseFloat ⟨replaceFirstComma cleaned⟩ with
    | some q => q
    | none => 0

/-- Balance field of a statement: ISO date and signed amount, both nullable. -/
structure BalanceInfo where
  date : Option String
  amount : Option ℚ
deriving DecidableEq

/-- `parseBalanceLine`. -/
def parseBalanceLine (line : Option String) : BalanceInfo :=
  match line with
  | none => { date := none, amount := none }
  | some l =>
    match balScan l.data with
    | none => { date := none, amount := none }
    | some (datePart, amountPart, sign) =>
      let numericAmount := parseEuropeanNumber amountPart
      { date := toIsoDate (some datePart),
        amount := some (if sign = '-' then -numericAmount else numericAmount) }

/-- JS `Infinity`-free comparison used by `inferValueDate`: a `NaN`
(`none`) month delta compares false. -/
def optLtI (o : Option ℤ) (c : ℤ) : Bool :=
  match o with
  | some v => v < c
  | none => false

/-- `NaN`-aware strict greater-than for `inferValueDate`. -/
def optGtI (o : Option ℤ) (c : ℤ) : Bool :=
  match o with
  | some v => v > c
  | none => false

/-- JS template interpolation of a possibly-`NaN` number. -/
def intDisplay (o : Option ℤ) : String :=
  match o with
  | some v => toString v
  | none => "NaN"

/-- `inferValueDate`: an explicit 4-digit year is used verbatim; otherwise the
year comes from the booking-date context, rolled forward when the value month
is more than 6 months behind the booking month and backward when more than 6
months ahead. -/
def inferValueDate (day month : String) (yearMaybe : Option String)
    (bookingDate : Option String) : Option String :=
  match jsOrNullStr yearMaybe with
  | some y => some (y ++ "-" ++ month ++ "-" ++ day)
  | none =>
    match jsOrNullStr bookingDate with
    | some bd =>
      let parts := bd.splitOn "-"
      let bookingYear := jsParseIntO parts[0]?
      let bookingMonth := jsParseIntO parts[1]?
      let valueMonth := jsParseInt month
      let monthDelta : Option ℤ :=
        match valueMonth, bookingMonth with
        | some v, some b => some (v - b)
        | _, _ => none
      let year : Option ℤ :=
        match bookingYear with
        | some y =>
          some (if optLtI monthDelta (-6) then y + 1
                else if optGtI monthDelta 6 then y - 1 else y)
        | none => none
      some (intDisplay year ++ "-" ++ month ++ "-" ++ day)
    | none => none

/-- Result of `parseValueLine`. -/
structure ValueInfo where
  valueDate : Option String
  amount : Option ℚ
  currency : Option String
  direction : Option String
deriving DecidableEq

/-- `parseValueLine`: a missing or non-matching value line leaves amount and
direction null; otherwise the sign determines both the direction and the sign
of the amount. -/
def parseValueLine (line : Option String) (bookingDate : Option String)
    (currency : Option String) : ValueInfo :=
  match line with
  | none =>
    { valueDate := jsOrNullStr bookingDate, amount := none, currency, direction := none }
  | some l =>
    match valueLineMatch l with
    | none =>
      { valueDate := jsOrNullStr bookingDate, amount := none, currency, direction := none }
    | some (day, month, yearMaybe, amountString, sign) =>
      let numericAmount := parseEuropeanNumber amountString
      { valueDate := inferValueDate day month yearMaybe bookingDate,
        amount := some (if sign = '-' then -numericAmount else numericAmount),
        currency,
        direction := some (if sign = '-' then "debit" else "credit") }

/-- Result of `parseDetailLines`. -/
structure DetailInfo where
  executionDate : Option String
  communication : Option String
  bankReference : Option String
  orderReference : Option String
  counterpartyAccount : Option String
  counterpartyCurrency : Option String
  counterpartyBic : Option String
  counterpartyName : Option String
  counterpartyAddress : Option String
  additionalDetails : List String
deriving DecidableEq

/-- Forward scan of `consumeValue` for the first nonempty line after a bare
label, stopping (without consuming) at any line that contains a colon. -/
def consumeScan (lines : List String) (startIndex : Nat) : Nat → Nat → String × Nat
  | 0, _ => ("", startIndex)
  | fuel + 1, cursor =>
    if cursor < lines.length then
      let candidate := lines.getD cursor ""
      if candidate = "" then consumeScan lines startIndex fuel (cursor + 1)
      else if candidate.data.contains ':' then ("", startIndex)
      else (candidate.trim, cursor)
    else ("", startIndex)

/-- `consumeValue`: value after the colon on the labelled line, else the next
nonempty unlabelled line; returns the value and the index to resume after. -/
def consumeValue (lines : List String) (startIndex : Nat) : String × Nat :=
  let line := lines.getD startIndex ""
  let value :=
    match line.data.findIdx? (fun c => c = ':') with
    | none => ""
    | some i => (⟨line.data.drop (i + 1)⟩ : String).trim
  if value ≠ "" then (value, startIndex)
  else consumeScan lines startIndex (lines.length + 1) (startIndex + 1)

/-- Loop state of `parseDetailLines`: the record under construction plus the
residual (unclassified) lines in order. -/
structure DetailAcc where
  info : DetailInfo
  residual : List String

/-- The classification loop of `parseDetailLines`, on (index, fuel).  Each
iteration advances the index by at least one, so `lines.length + 1` fuel is
enough to reproduce the JS `for` loop exactly. -/
def detailsGo (lines : List String) : Nat → Nat → DetailAcc → DetailAcc
  | 0, _, st => st
  | fuel + 1, index, st =>
    if index < lines.length then
      let line := lines.getD index ""
      if line.startsWith "Date d\x27exécution" then
        let c := consumeValue lines index
        detailsGo lines fuel (c.2 + 1)
          { st with info := { st.info with executionDate := toIsoDate (some c.1) } }
      else if line.startsWith "Date de l\x27opération" then
        let c := consumeValue lines index
        detailsGo lines fuel (c.2 + 1)
          { st with info := { st.info with executionDate := toIsoDate (some c.1) } }
      else if line.startsWith "Communication" then
        let c := consumeValue lines index
        detailsGo lines fuel (c.2 + 1)
          { st with info := { st.info with
              communication := jsOrSS (some c.1) st.info.communication } }
      else if line.startsWith "Référence banque" then
        let c := consumeValue lines index
        detailsGo lines fuel (c.2 + 1)
          { st with info := { st.info with
              bankReference := jsOrSS (some c.1) st.info.bankReference } }
      else if line.startsWith "Référence donneur d\x27ordre" then
        let c := consumeValue lines index
        detailsGo lines fuel (c.2 + 1)
          { st with info := { st.info with
              orderReference := jsOrSS (some c.1) st.info.orderReference } }
      else
        match parseIbanLine line with
        | some (iban, cur) =>
          detailsGo lines fuel (index + 1)
            { st with info := { st.info with
                counterpartyAccount := some iban,
                counterpartyCurrency :=
                  match cur with
                  | some c => some c
                  | none => st.info.counterpartyCurrency } }
        | none =>
          let bicCandidate := stripWs line
          if bicTest bicCandidate then
            detailsGo lines fuel (index + 1)
              { st with info := { st.info with counterpartyBic := some bicCandidate } }
          else
            detailsGo lines fuel (index + 1) { st with residual := st.residual ++ [line] }
    else st

/-- `parseDetailLines`: classify each detail line, then distribute the residual
lines as counterparty name, counterparty address and additional details. -/
def parseDetailLines (lines : List String) : DetailInfo :=
  let st := detailsGo lines (lines.length + 1) 0
    { info := { executionDate := none, communication := none, bankReference := none,
                orderReference := none, counterpartyAccount := none,
                counterpartyCurrency := none, counterpartyBic := none,
                counterpartyName := none, counterpartyAddress := none,
                additionalDetails := [] },
      residual := [] }
  match st.residual with
  | [] => st.info
  | n :: rest =>
    match rest with
    | [] => { st.info with counterpartyName := some n }
    | a :: rest2 =>
      { st.info with
        counterpartyName := some n, counterpartyAddress := some a,
        additionalDetails := st.info.additionalDetails ++ rest2 }

/-- One parsed Operation of a Statement, including the raw details kept in the
per-statement artifact. -/
structure StmtOperation where
  sequence : String
  title : String
  bookingDate : Option String
  executionDate : Option String
  valueDate : Option String
  amount : Option ℚ
  currency : Option String
  direction : Option String
  communication : Option String
  bankReference : Option String
  orderReference : Option String
  counterpartyAccount : Option String
  counterpartyCurrency : Option String
  counterpartyBic : Option String
  counterpartyName : Option String
  counterpartyAddress : Option String
  additionalDetails : List String
  rawDetailLines : List String
  rawValueLine : Option String
deriving DecidableEq

/-- `buildOperation`. -/
def buildOperation (sequence title : String) (bookingDate : Option String)
    (valueLine : Option String) (detailLines : List String)
    (currency : Option String) : StmtOperation :=
  let detailInfo := parseDetailLines detailLines
  let valueInfo := parseValueLine valueLine bookingDate currency
  { sequence, title,
    bookingDate := jsOrSS bookingDate valueInfo.valueDate,
    executionDate := detailInfo.executionDate,
    valueDate := valueInfo.valueDate,
    amount := valueInfo.amount,
    currency := valueInfo.currency,
    direction := valueInfo.direction,
    communication := detailInfo.communication,
    bankReference := detailInfo.bankReference,
    orderReference := detailInfo.orderReference,
    counterpartyAccount := detailInfo.counterpartyAccount,
    counterpartyCurrency := detailInfo.counterpartyCurrency,
    counterpartyBic := detailInfo.counterpartyBic,
    counterpartyName := detailInfo.counterpartyName,
    counterpartyAddress := detailInfo.counterpartyAddress,
    additionalDetails := detailInfo.additionalDetails,
    rawDetailLines := detailLines,
    rawValueLine := valueLine }

/-- Detail-block loop of `extractOperations`: collect detail lines until a
value line, the next operation opener, a footer, or the end; returns
`(detailLines, valueLine?, next index, updated booking-date context)`. -/
def detailLoop (lines : List String) :
    Nat → Nat → Option String → List String →
    List String × Option String × Nat × Option String
  | 0, index, cbd, acc => (acc, none, index, cbd)
  | fuel + 1, index, cbd, acc =>
    if index < lines.length then
      let detailLine := lines.getD index ""
      if detailLine = "" then detailLoop lines fuel (index + 1) cbd acc
      else if detailLine.startsWith "Solde " || detailLine.startsWith "-- " then
        (acc, none, index, cbd)
      else if detailLine.startsWith "..." then detailLoop lines fuel (index + 1) cbd acc
      else if (isoDateMatch detailLine).isSome then
        detailLoop lines fuel (index + 1) (toIsoDate (some detailLine)) acc
      else if (valueLineMatch detailLine).isSome then
        (acc, some detailLine, index + 1, cbd)
      else if (opLineMatch detailLine).isSome then (acc, none, index, cbd)
      else detailLoop lines fuel (index + 1) cbd (acc ++ [detailLine])
    else (acc, none, index, cbd)

/-- The one-extra-scan fallback for a missing value line: skip blank lines,
then either consume a value-line-shaped line or give up at the first
non-blank line. -/
def fallbackScan (lines : List String) : Nat → Nat → Option String × Nat
  | 0, index => (none, index)
  | fuel + 1, index =>
    if index < lines.length then
      let fallbackLine := lines.getD index ""
      if fallbackLine = "" then fallbackScan lines fuel (index + 1)
      else if (valueLineMatch fallbackLine).isSome then (some fallbackLine, index + 1)
      else (none, index)
    else (none, index)

/-- Header-row skip after the operations header (`Date` and
`Valeur Montant...` column-label rows). -/
def skipHeaderRows (lines : List String) : Nat → Nat → Nat
  | 0, index => index
  | fuel + 1, index =>
    if lines.getD index "" = "Date" ∨ (lines.getD index "").startsWith "Valeur Montant" then
      skipHeaderRows lines fuel (index + 1)
    else index

/-- Main operation loop of `extractOperations`. -/
def opsGo (lines : List String) (currency : Option String) :
    Nat → Nat → Option String → List StmtOperation → List StmtOperation
  | 0, _, _, acc => acc
  | fuel + 1, index, cbd, acc =>
    if index < lines.length then
      let line := lines.getD index ""
      if line = "" then opsGo lines currency fuel (index + 1) cbd acc
      else if line.startsWith "Solde " || line.startsWith "Les dépôts " ||
          line.startsWith "-- " then acc
      else if line.startsWith "..." then opsGo lines currency fuel (index + 1) cbd acc
      else if (isoDateMatch line).isSome then
        opsGo lines currency fuel (index + 1) (toIsoDate (some line)) acc
      else
        match opLineMatch line with
        | none => opsGo lines currency fuel (index + 1) cbd acc
        | some (sequence, title) =>
          let d := detailLoop lines (lines.length + 1) (index + 1) cbd []
          let detailLines := d.1
          let vl0 := d.2.1
          let idx1 := d.2.2.1
          let cbd1 := d.2.2.2
          let f :=
            match vl0 with
            | some v => (some v, idx1)
            | none => fallbackScan lines (lines.length + 1) idx1
          let op := buildOperation sequence title cbd1 f.1 detailLines currency
          opsGo lines currency fuel f.2 cbd1 (acc ++ [op])
    else acc

/-- `extractOperations`: fails when the operations header was not found, else
runs the operation loop from just past the header and its column-label rows. -/
def extractOperations (lines : List String) (operationsHeaderIndex : Option Nat)
    (currency : Option String) : Except String (List StmtOperation) :=
  match operationsHeaderIndex with
  | none => Except.error "Unable to find the operations header in the statement."
  | some headerIndex =>
    let start := skipHeaderRows lines (lines.length + 1) (headerIndex + 1)
    Except.ok (opsGo lines currency (lines.length + 1) start none [])

/-- Account block of a Statement. -/
structure Account where
  name : Option String
  iban : String
  currency : Option String
  bic : Option String
deriving DecidableEq

/-- Opening/closing balances of a Statement. -/
structure Balances where
  closing : BalanceInfo
  opening : BalanceInfo
deriving DecidableEq

/-- Result of `extractStatementMeta`. -/
structure StatementMeta where
  account : Account
  statementNumber : Option String
  statementYear : Option String
  balances : Balances
  operationsHeaderIndex : Option Nat
deriving DecidableEq

/-- Remove the first occurrence of `pat` from `s` (JS `replace(pat, "")` with a
string pattern). -/
def removeFirst (s pat : String) : String :=
  ⟨(removeFirstAux s.data pat.data)⟩
where
  removeFirstAux : List Char → List Char → List Char
    | [], _ => []
    | c :: t, p => if chPre p (c :: t) then t.drop (p.length - 1) else c :: removeFirstAux t p

/-- `extractStatementMeta`: locate the IBAN anchor (failing when absent) and
collect the header fields around it. -/
def extractStatementMeta (lines : List String) : Except String StatementMeta :=
  match lines.findIdx? isPotentialIbanLine with
  | none => Except.error "Unable to locate account IBAN line in statement."
  | some ibanIndex =>
    let accountLine := lines.getD ibanIndex ""
    let accountName :=
      if ibanIndex = 0 then none else jsOrNullStr (lines.getD (ibanIndex - 1) "")
    let bicLine := lines.find? (fun l => l.startsWith "BIC ")
    let statementTitleLine := lines.find? (fun l => strIncludes l "Extrait N°")
    let closingBalanceLine := lines.find? (fun l => l.startsWith "Solde actuel au ")
    let openingBalanceLine := lines.find? (fun l => l.startsWith "Solde précédent au ")
    let acct := parseAccountLine accountLine
    let titleInfo := parseStatementTitle statementTitleLine
    Except.ok
      { account :=
          { name := accountName, iban := acct.1, currency := acct.2,
            bic := bicLine.map (fun l => (removeFirst l "BIC").trim) },
        statementNumber := titleInfo.1,
        statementYear := titleInfo.2,
        balances :=
          { closing := parseBalanceLine closingBalanceLine,
            opening := parseBalanceLine openingBalanceLine },
        operationsHeaderIndex :=
          lines.findIdx? (fun l => l.startsWith "N° Type d\x27opération") }

/-- Provenance of a parsed document plus the modelled wall clock (used for
`generatedAt` and the `Date.now()` statement-id fallback). -/
structure SourceContext where
  source : String
  originPath : String
  entryName : Option String
  now : String
deriving DecidableEq

/-- One parsed Statement (the per-statement JSON artifact minus file layout). -/
structure ParsedStatement where
  statementId : String
  generatedAt : String
  sourceType : String
  originPath : String
  entryName : Option String
  account : Account
  balances : Balances
  statementNumber : Option String
  statementYear : Option String
  operations : List StmtOperation
  rawStatementLines : List String
deriving DecidableEq

/-- JS `trimEnd`. -/
def trimEndStr (s : String) : String :=
  ⟨(s.data.reverse.dropWhile Char.isWhitespace).reverse⟩

/-- `padLeft`: zero-pad on the left to the requested length. -/
def padLeft (value : String) (length : Nat) : String :=
  if value.length ≥ length then value
  else ⟨List.replicate (length - value.length) '0' ++ value.data⟩

/-- `buildFileSafeName`: every character outside `[A-Za-z0-9._-]` becomes `_`. -/
def buildFileSafeName (value : String) : String :=
  ⟨value.data.map (fun c =>
    if c.isAlpha || c.isDigit || c = '.' || c = '_' || c = '-' then c else '_')⟩

/-- `path.basename(p, ext)`: the part after the last `/`, with a trailing
`ext` removed unless the basename is exactly `ext`. -/
def jsBasename (p ext : String) : String :=
  let base : String := ⟨(p.data.reverse.takeWhile (fun c => c ≠ '/')).reverse⟩
  if base ≠ ext ∧ base.endsWith ext then
    ⟨base.data.take (base.data.length - ext.length)⟩
  else base

/-- `path.basename(p)` without extension stripping. -/
def jsBase (p : String) : String :=
  ⟨(p.data.reverse.takeWhile (fun c => c ≠ '/')).reverse⟩

/-- `buildStatementId`: last-6-IBAN + year + zero-padded number when the title
was parsed, else a file-safe name from the entry or origin path, else a
timestamp fallback. -/
def buildStatementId (meta : StatementMeta) (context : SourceContext) : String :=
  if (jsOrNullStr meta.statementYear).isSome ∧ (jsOrNullStr meta.statementNumber).isSome then
    let accountSegment :=
      if meta.account.iban ≠ "" then
        (⟨meta.account.iban.data.drop (meta.account.iban.data.length - 6)⟩ : String)
      else "account"
    accountSegment ++ "-" ++ meta.statementYear.getD "" ++ "-" ++
      padLeft (meta.statementNumber.getD "") 3
  else
    match jsOrNullStr context.entryName with
    | some e => buildFileSafeName (jsBasename e ".pdf")
    | none =>
      if context.originPath ≠ "" then buildFileSafeName (jsBasename context.originPath ".pdf")
      else "statement-" ++ context.now

/-- `parseStatement` on the extracted text lines of one document: trim and
blank-filter, extract header metadata, extract operations, assemble the
per-statement record.  (PDF text extraction itself is the out-of-scope
collaborator of spec §1/§6; it delivers `originalLines`.) -/
def parseStatementLines (originalLines : List String) (context : SourceContext) :
    Except String ParsedStatement := do
  let trimmedLines := (originalLines.map String.trim).filter (fun l => l ≠ "")
  let meta ← extractStatementMeta trimmedLines
  let ops ← extractOperations trimmedLines meta.operationsHeaderIndex meta.account.currency
  Except.ok
    { statementId := buildStatementId meta context,
      generatedAt := context.now,
      sourceType := context.source,
      originPath := context.originPath,
      entryName := context.entryName,
      account := meta.account,
      balances := meta.balances,
      statementNumber := meta.statementNumber,
      statementYear := meta.statementYear,
      operations := ops,
      rawStatementLines := originalLines.map trimEndStr }

/-- `writeStatementJson` over an explicit filesystem (list of existing paths):
refuses to overwrite without the flag, else returns the target path and the
filesystem with the file present. -/
def writeStatementJson (statement : ParsedStatement) (outputDir : String)
    (overwrite : Bool) (fsPaths : List String) : Except String (String × List String) :=
  let baseName :=
    if statement.statementId ≠ "" then statement.statementId
    else buildFileSafeName (optDisplay (jsOrSS statement.entryName (some statement.originPath)))
  let targetPath := outputDir ++ "/" ++ baseName ++ ".json"
  if !overwrite ∧ fsPaths.contains targetPath then
    Except.error ("File already exists at " ++ targetPath ++ ". Use --overwrite to replace it.")
  else
    Except.ok (targetPath, if fsPaths.contains targetPath then fsPaths else fsPaths ++ [targetPath])

/-- A Statement as carried through the batch: the parsed record plus the path
its artifact was written to. -/
structure ProcessedStatement extends ParsedStatement where
  outputPath : String
deriving DecidableEq

/-- One entry of a ZIP archive, with the text lines its PDF extracts to. -/
structure ZipEntry where
  entryName : String
  isDirectory : Bool
  textLines : List String
deriving DecidableEq

/-- One recorded per-document failure of a batch. -/
structure ZipFailure where
  source : String
  zipPath : String
  entryName : String
  error : String
deriving DecidableEq

/-- Running state of `processZipArchive`: collected statements, collected
failures, and the filesystem as written so far. -/
structure ZipResult where
  statements : List ProcessedStatement
  failures : List ZipFailure
  fsPaths : List String
deriving DecidableEq

/-- Whether a ZIP entry is picked up by the loop (a non-directory `.pdf`). -/
def zipEntryEligible (e : ZipEntry) : Bool :=
  !e.isDirectory && (jsToLower e.entryName).endsWith ".pdf"

/-- Body of the per-entry `try`/`catch` of `processZipArchive`: parse and write
one entry; an error on either step is recorded as a failure for just this
entry. -/
def processEntry (zipPath outputDir : String) (overwrite : Bool) (now : String)
    (st : ZipResult) (entry : ZipEntry) : ZipResult :=
  if !zipEntryEligible entry then st
  else
    match
      (do
        let parsed ← parseStatementLines entry.textLines
          { source := "zip", originPath := zipPath, entryName := some entry.entryName, now }
        let written ← writeStatementJson parsed outputDir overwrite st.fsPaths
        Except.ok (parsed, written) : Except String (ParsedStatement × String × List String))
    with
    | Except.ok (parsed, outputPath, fsPaths) =>
      { st with
        statements := st.statements ++ [{ toParsedStatement := parsed, outputPath }],
        fsPaths := fsPaths }
    | Except.error e =>
      { st with
        failures := st.failures ++
          [{ source := "zip", zipPath, entryName := entry.entryName, error := e }] }

/-- `processZipArchive`: process every eligible entry independently, collecting
statements and failures. -/
def processZipArchive (zipPath : String) (entries : List ZipEntry) (overwrite : Bool)
    (outputDir : String) (now : String) (fsPaths : List String) : ZipResult :=
  entries.foldl (processEntry zipPath outputDir overwrite now)
    { statements := [], failures := [], fsPaths }

/-- The process-level exit signal `main` sets after the batch: `1` exactly when
at least one failure was recorded. -/
def batchExitCode (failures : List ZipFailure) : Nat :=
  if failures.isEmpty then 0 else 1

/-- One entry of the aggregated operations index: an Operation denormalized
with the reference fields of its Statement (all Operation fields except
`rawDetails`). -/
structure IndexEntry where
  statementId : String
  statementFile : String
  accountIban : String
  accountName : Option String
  statementYear : Option String
  statementNumber : Option String
  sequence : String
  title : String
  bookingDate : Option String
  executionDate : Option String
  valueDate : Option String
  amount : Option ℚ
  currency : Option String
  direction : Option String
  communication : Option String
  bankReference : Option String
  orderReference : Option String
  counterpartyAccount : Option String
  counterpartyBic : Option String
  counterpartyName : Option String
  counterpartyAddress : Option String
deriving DecidableEq

/-- The aggregated index artifact `{generatedAt, operations}`. -/
structure IndexPayload where
  generatedAt : String
  operations : List IndexEntry
deriving DecidableEq

/-- The denormalized entries of one statement, in operation order. -/
def statementIndexEntries (st : ProcessedStatement) : List IndexEntry :=
  st.operations.map (fun op =>
    { statementId := st.statementId,
      statementFile := jsBase st.outputPath,
      accountIban := st.account.iban,
      accountName := st.account.name,
      statementYear := st.statementYear,
      statementNumber := st.statementNumber,
      sequence := op.sequence,
      title := op.title,
      bookingDate := op.bookingDate,
      executionDate := op.executionDate,
      valueDate := op.valueDate,
      amount := op.amount,
      currency := op.currency,
      direction := op.direction,
      communication := op.communication,
      bankReference := op.bankReference,
      orderReference := op.orderReference,
      counterpartyAccount := op.counterpartyAccount,
      counterpartyBic := op.counterpartyBic,
      counterpartyName := op.counterpartyName,
      counterpartyAddress := op.counterpartyAddress })

/-- `emitAggregatedIndex`: the flat index over all statements of the run, in
statement order then operation order, stamped with the build clock. -/
def emitAggregatedIndex (statements : List ProcessedStatement) (now : String) : IndexPayload :=
  { generatedAt := now,
    operations := statements.foldl (fun acc st => acc ++ statementIndexEntries st) [] }

/-! ## Invoice matcher (`match-invoices-payments.js`) -/

/-- `MAX_DATE_DIFF_DAYS`, at its default (env `INVOICE_MATCH_MAX_DAYS` unset). -/
def MAX_DATE_DIFF_DAYS : ℚ := 120

/-- `Number.MAX_SAFE_INTEGER`, the sort key used for a missing `daysDiff`. -/
def maxSafeInteger : ℚ := 9007199254740991

/-- `parseNumber` from the matcher: JS null/undefined/empty and non-numeric
strings give `null`; a number passes through.  With amounts already embedded
as `Option ℚ`, this is the identity on the embedded value. -/
def parseNumber (value : Option ℚ) : Option ℚ :=
  match value with
  | some x => some x
  | none => none

/-- `roundCurrency`: round to two decimals, half up. -/
def roundCurrency (value : ℚ) : ℚ :=
  (jsRound (value * 100) : ℚ) / 100

/-- An operation of the loaded index after the map step of `loadOperations`: the
amount coerced to a number, the booking date defaulted to the value date. -/
structure LoadedOperation where
  statementId : String
  statementFile : String
  accountIban : String
  accountName : Option String
  statementYear : Option String
  statementNumber : Option String
  sequence : String
  title : String
  bookingDate : Option String
  executionDate : Option String
  valueDate : Option String
  amount : ℚ
  currency : Option String
  direction : Option String
  communication : Option String
  bankReference : Option String
  orderReference : Option String
  counterpartyAccount : Option String
  counterpartyBic : Option String
  counterpartyName : Option String
  counterpartyAddress : Option String
deriving DecidableEq

/-- The filter of `loadOperations`: credit direction (case-insensitively,
after trimming) and a non-null amount. -/
def loadFilter (op : IndexEntry) : Bool :=
  jsToLower (sanitize op.direction) = "credit" && op.amount.isSome

/-- The map step of `loadOperations`: spread the entry, coerce the amount with
`Number(...)` and default the booking date to the value date. -/
def mapLoadedEntry (op : IndexEntry) : LoadedOperation :=
  { statementId := op.statementId,
    statementFile := op.statementFile,
    accountIban := op.accountIban,
    accountName := op.accountName,
    statementYear := op.statementYear,
    statementNumber := op.statementNumber,
    sequence := op.sequence,
    title := op.title,
    bookingDate := jsOrSS op.bookingDate op.valueDate,
    executionDate := op.executionDate,
    valueDate := op.valueDate,
    amount := op.amount.getD 0,
    currency := op.currency,
    direction := op.direction,
    communication := op.communication,
    bankReference := op.bankReference,
    orderReference := op.orderReference,
    counterpartyAccount := op.counterpartyAccount,
    counterpartyBic := op.counterpartyBic,
    counterpartyName := op.counterpartyName,
    counterpartyAddress := op.counterpartyAddress }

/-- `loadOperations` on the operations array of the index artifact (file
resolution and JSON decoding abstracted): keep credit entries with a non-null
amount, then normalize each. -/
def loadOperations (operations : List IndexEntry) : List LoadedOperation :=
  (operations.filter loadFilter).map mapLoadedEntry

/-- An Invoice as the matcher reads it.  `clientName` models the resolved
`invoice.client && (invoice.client.display_name || invoice.client.name)`. -/
structure Invoice where
  amount : Option ℚ
  balance : Option ℚ
  invoice_date : Option String
  due_date : Option String
  invoice_number : Option String
  number : Option String
  clientName : Option String
deriving DecidableEq

/-- One ranked match candidate. -/
structure MatchCandidate where
  targetLabel : String
  operation : LoadedOperation
  daysDiff : Option ℚ
  refScore : ℤ
  nameScore : ℤ
  confidence : ℤ
deriving DecidableEq

/-- `buildReferenceString`: normalized concatenation of the truthy reference
fields, in communication / order / bank order. -/
def buildReferenceString (operation : LoadedOperation) : String :=
  normalizeStr (some (String.intercalate " "
    (([operation.communication, operation.orderReference,
       operation.bankReference].filterMap jsOrNullStr))))

/-- `computeNameScore`: number of counterparty-name tokens present in the
invoice client-name token set (duplicates on the counterparty side count
each time, as in the `forEach` of the source). -/
def computeNameScore (invoiceClientName : String) (counterpartyName : Option String) : ℤ :=
  if invoiceClientName = "" then 0
  else
    match jsOrNullStr counterpartyName with
    | none => 0
    | some cn =>
      let invoiceTokens := tokenize (some invoiceClientName)
      let counterTokens := tokenize (some cn)
      if invoiceTokens.isEmpty || counterTokens.isEmpty then 0
      else ((counterTokens.filter (fun t => invoiceTokens.contains t)).length : ℤ)

/-- `computeConfidence`: base 50, date-proximity bonus (+5 for an unknown
date), reference bonus, name bonus/penalty, partial-payment penalty, rounded
and clamped to `[10, 99]`. -/
def computeConfidence (daysDiff : Option ℚ) (refScore : ℤ) (nameScore : ℤ)
    (targetLabel : String) : ℤ :=
  let dateDelta : ℚ :=
    match daysDiff with
    | some d =>
      if d ≤ 2 then 30
      else if d ≤ 7 then 25
      else if d ≤ 14 then 22
      else if d ≤ 30 then 15
      else if d ≤ 60 then 10
      else if d ≤ 90 then 6
      else if d ≤ 120 then 4
      else 1 - min 10 (max 0 (d - 120) * (1 / 10))
    | none => 5
  let refDelta : ℚ :=
    if refScore ≥ 3 then 15 else if refScore = 2 then 12 else if refScore = 1 then 8 else 0
  let nameDelta : ℚ :=
    if nameScore ≥ 3 then 10
    else if nameScore = 2 then 8
    else if nameScore = 1 then 6
    else if nameScore = 0 then -2
    else 0
  let labelDelta : ℚ :=
    if targetLabel ≠ "" ∧ strIncludes (jsToLower targetLabel) "partial" then -5 else 0
  max 10 (min 99 (jsRound (50 + dateDelta + refDelta + nameDelta + labelDelta)))

/-- The dedup key
`${statementId}:${sequence || bankReference || bookingDate}:${label}`. -/
def opKey (operation : LoadedOperation) (label : String) : String :=
  operation.statementId ++ ":" ++
    optDisplay (jsOrSS (some operation.sequence)
      (jsOrSS operation.bankReference operation.bookingDate)) ++ ":" ++ label

/-- The dedup key of a candidate (its operation under its target label). -/
def candKey (c : MatchCandidate) : String :=
  opKey c.operation c.targetLabel

/-- The per-operation body of the target/operation double loop: amount filter,
dedup-key filter, date-window filter, then scoring and appending. -/
def considerOperation (invoiceDate : Option ℤ)
    (invoiceNumber invoiceNumberDigits clientName : String) (target : ℚ × String)
    (st : List String × List MatchCandidate) (operation : LoadedOperation) :
    List String × List MatchCandidate :=
  let opAmount := roundCurrency operation.amount
  if |opAmount - target.1| > 1 / 1000 then st
  else
    let operationKey := opKey operation target.2
    if st.1.contains operationKey then st
    else
      let bookingDate := parseDate operation.bookingDate
      let days := diffDays invoiceDate bookingDate
      if daysGt days MAX_DATE_DIFF_DAYS then st
      else
        let referenceString := buildReferenceString operation
        let refScore : ℤ :=
          if invoiceNumberDigits ≠ "" ∧ strIncludes referenceString invoiceNumberDigits then 3
          else if invoiceNumber ≠ "" ∧
              strIncludes referenceString (normalizeStr (some invoiceNumber)) then 2
          else 0
        let nameScore := computeNameScore clientName operation.counterpartyName
        let candidate : MatchCandidate :=
          { targetLabel := target.2, operation, daysDiff := days, refScore, nameScore,
            confidence := computeConfidence days refScore nameScore target.2 }
        (st.1 ++ [operationKey], st.2 ++ [candidate])

/-- Sort key for the day difference of a candidate (`null` sorts as
`Number.MAX_SAFE_INTEGER`). -/
def dayKey (c : MatchCandidate) : ℚ :=
  match c.daysDiff with
  | none => maxSafeInteger
  | some d => d

/-- The comparator of the candidate sort: ascending day difference, then
descending reference score, then descending name score. -/
def candCmp (a b : MatchCandidate) : ℚ :=
  if dayKey a ≠ dayKey b then dayKey a - dayKey b
  else if a.refScore ≠ b.refScore then ((b.refScore - a.refScore : ℤ) : ℚ)
  else ((b.nameScore - a.nameScore : ℤ) : ℚ)

/-- The total preorder induced by the comparator; a stable sort under it is
exactly what `Array.prototype.sort` produces. -/
def candLE (a b : MatchCandidate) : Prop :=
  candCmp a b ≤ 0

instance : DecidableRel candLE := fun a b =>
  inferInstanceAs (Decidable (candCmp a b ≤ 0))

/-- The targets list of `findMatchesForInvoice`: the full invoice amount when
positive, plus the recorded partial payment when above one cent. -/
def invoiceTargets (amount paidAmount : ℚ) : List (ℚ × String) :=
  (if amount > 0 then [(roundCurrency amount, "invoice amount")] else []) ++
    (if paidAmount > 1 / 100 then [(roundCurrency paidAmount, "recorded partial payment")]
     else [])

/-- The candidate list computed by `findMatchesForInvoice`: filter and score
per target, sort stably by the comparator, truncate to five. -/
def findMatchesList (invoice : Invoice) (operations : List LoadedOperation) :
    List MatchCandidate :=
  let amount := jsOrQ (parseNumber invoice.amount) 0
  let balance := jsOrQ (parseNumber invoice.balance) 0
  let paidAmount := amount - balance
  let invoiceDate :=
    match parseDate invoice.invoice_date with
    | some d => some d
    | none => parseDate invoice.due_date
  let invoiceNumber := sanitize (jsOrSS invoice.invoice_number invoice.number)
  let invoiceNumberDigits :=
    if invoiceNumber ≠ "" then (⟨invoiceNumber.data.filter Char.isDigit⟩ : String) else ""
  let clientName := invoice.clientName.getD ""
  let folded := (invoiceTargets amount paidAmount).foldl
    (fun st target =>
      operations.foldl
        (considerOperation invoiceDate invoiceNumber invoiceNumberDigits clientName target)
        st)
    ([], [])
  (List.insertionSort candLE folded.2).take 5

/-- `findMatchesForInvoice`.  The function body contains no `throw` and calls
no throwing helper, so the embedding always returns `Except.ok`; the `Except`
layer records where a raised error would surface. -/
def findMatchesForInvoice (invoice : Invoice) (operations : List LoadedOperation) :
    Except String (List MatchCandidate) :=
  Except.ok (findMatchesList invoice operations)

/-! ## Lemmas about the matcher pipeline -/

/-- Soundness facts carried by every candidate the double loop appends: it
wraps one of the given operations, its day difference is known and within the
window, and its confidence is the confidence formula applied to its own
fields. -/
def candSound (ops : List LoadedOperation) (c : MatchCandidate) : Prop :=
  c.operation ∈ ops ∧
    (∃ d, c.daysDiff = some d ∧ d ≤ MAX_DATE_DIFF_DAYS) ∧
    c.confidence = computeConfidence c.daysDiff c.refScore c.nameScore c.targetLabel

theorem mem_considerOperation (invoiceDate : Option ℤ)
    (invoiceNumber invoiceNumberDigits clientName : String) (target : ℚ × String)
    (st : List String × List MatchCandidate) (op : LoadedOperation)
    (c : MatchCandidate)
    (h : c ∈ (considerOperation invoiceDate invoiceNumber invoiceNumberDigits
        clientName target st op).2) :
    c ∈ st.2 ∨ (c.operation = op ∧
      (∃ d, c.daysDiff = some d ∧ d ≤ MAX_DATE_DIFF_DAYS) ∧
      c.confidence = computeConfidence c.daysDiff c.refScore c.nameScore c.targetLabel) := by
  simp only [considerOperation] at h
  split_ifs at h with hA hK hD hR1 hR2
  · exact Or.inl h
  · exact Or.inl h
  · exact Or.inl h
  all_goals
    rcases List.mem_append.1 h with hmem | hmem
  · exact Or.inl hmem
  · rcases List.mem_singleton.1 hmem with rfl
    refine Or.inr ⟨rfl, ?_, rfl⟩
    rcases hd : diffDays invoiceDate (parseDate op.bookingDate) with _ | d
    · rw [hd] at hD
      exact absurd rfl hD
    · rw [hd] at hD
      simp only [daysGt, decide_eq_true_eq] at hD
      exact ⟨d, rfl, le_of_not_lt hD⟩
  · exact Or.inl hmem
  · rcases List.mem_singleton.1 hmem with rfl
    refine Or.inr ⟨rfl, ?_, rfl⟩
    rcases hd : diffDays invoiceDate (parseDate op.bookingDate) with _ | d
    · rw [hd] at hD
      exact absurd rfl hD
    · rw [hd] at hD
      simp only [daysGt, decide_eq_true_eq] at hD
      exact ⟨d, rfl, le_of_not_lt hD⟩
  · exact Or.inl hmem
  · rcases List.mem_singleton.1 hmem with rfl
    refine Or.inr ⟨rfl, ?_, rfl⟩
    rcases hd : diffDays invoiceDate (parseDate op.bookingDate) with _ | d
    · rw [hd] at hD
      exact absurd rfl hD
    · rw [hd] at hD
      simp only [daysGt, decide_eq_true_eq] at hD
      exact ⟨d, rfl, le_of_not_lt hD⟩

theorem mem_foldl_considerOperation (invoiceDate : Option ℤ)
    (invoiceNumber invoiceNumberDigits clientName : String) (target : ℚ × String)
    (ops : List LoadedOperation) :
    ∀ (st : List String × List MatchCandidate) (c : MatchCandidate),
      c ∈ (ops.foldl (considerOperation invoiceDate invoiceNumber invoiceNumberDigits
          clientName target) st).2 →
      c ∈ st.2 ∨ candSound ops c := by
  induction ops with
  | nil => intro st c h; exact Or.inl h
  | cons op rest ih =>
    intro st c h
    rcases ih _ c h with hin | hsound
    · rcases mem_considerOperation invoiceDate invoiceNumber invoiceNumberDigits
        clientName target st op c hin with hin2 | hnew
      · exact Or.inl hin2
      · exact Or.inr ⟨by rw [hnew.1]; exact List.mem_cons_self op rest, hnew.2.1, hnew.2.2⟩
    · exact Or.inr ⟨List.mem_cons_of_mem op hsound.1, hsound.2.1, hsound.2.2⟩

theorem mem_foldl_targets (invoiceDate : Option ℤ)
    (invoiceNumber invoiceNumberDigits clientName : String)
    (targets : List (ℚ × String)) (ops : List LoadedOperation) :
    ∀ (st : List String × List MatchCandidate) (c : MatchCandidate),
      c ∈ (targets.foldl (fun st target =>
            ops.foldl (considerOperation invoiceDate invoiceNumber invoiceNumberDigits
              clientName target) st) st).2 →
      c ∈ st.2 ∨ candSound ops c := by
  induction targets with
  | nil => intro st c h; exact Or.inl h
  | cons t rest ih =>
    intro st c h
    rcases ih _ c h with hin | hsound
    · exact mem_foldl_considerOperation invoiceDate invoiceNumber invoiceNumberDigits
        clientName t ops st c hin
    · exact Or.inr hsound

/-- Every candidate the matcher returns wraps one of the given operations,
carries a known day difference within the window, and its confidence is the
confidence formula applied to its own fields. -/
theorem mem_findMatchesList (invoice : Invoice) (ops : List LoadedOperation)
    (c : MatchCandidate) (h : c ∈ findMatchesList invoice ops) :
    candSound ops c := by
  simp only [findMatchesList] at h
  have h1 := List.take_subset 5 _ h
  have h2 := (List.mem_insertionSort candLE).1 h1
  rcases mem_foldl_targets _ _ _ _ _ _ ([], []) c h2 with hin | hsound
  · exact absurd hin (List.not_mem_nil c)
  · exact hsound

/-- Invariant of the state of the double loop: the collected candidates have
pairwise-distinct dedup keys, and every collected key is in the seen set. -/
def keysInv (st : List String × List MatchCandidate) : Prop :=
  (st.2.map candKey).Nodup ∧ ∀ c ∈ st.2, candKey c ∈ st.1

theorem keysInv_considerOperation (invoiceDate : Option ℤ)
    (invoiceNumber invoiceNumberDigits clientName : String) (target : ℚ × String)
    (st : List String × List MatchCandidate) (op : LoadedOperation)
    (hinv : keysInv st) :
    keysInv (considerOperation invoiceDate invoiceNumber invoiceNumberDigits
      clientName target st op) ∧
    ∀ k ∈ st.1, k ∈ (considerOperation invoiceDate invoiceNumber invoiceNumberDigits
      clientName target st op).1 := by
  simp only [considerOperation]
  split_ifs with hA hK hD hR1 hR2
  · exact ⟨hinv, fun k hk => hk⟩
  · exact ⟨hinv, fun k hk => hk⟩
  · exact ⟨hinv, fun k hk => hk⟩
  all_goals
    refine ⟨⟨?_, ?_⟩, ?_⟩
  · rw [List.map_append]
    refine List.Nodup.append hinv.1 (List.nodup_singleton _) ?_
    intro k hk1 hk2
    rcases List.mem_map.1 hk1 with ⟨c, hc, rfl⟩
    rw [List.map_singleton, List.mem_singleton] at hk2
    have h0 := hinv.2 c hc
    rw [hk2] at h0
    exact hK (List.elem_eq_true_of_mem h0)
  · intro c hc
    rcases List.mem_append.1 hc with hin | hnew
    · exact List.mem_append.2 (Or.inl (hinv.2 c hin))
    · rcases List.mem_singleton.1 hnew with rfl
      exact List.mem_append.2 (Or.inr (List.mem_singleton.2 rfl))
  · intro k hk
    exact List.mem_append.2 (Or.inl hk)
  · rw [List.map_append]
    refine List.Nodup.append hinv.1 (List.nodup_singleton _) ?_
    intro k hk1 hk2
    rcases List.mem_map.1 hk1 with ⟨c, hc, rfl⟩
    rw [List.map_singleton, List.mem_singleton] at hk2
    have h0 := hinv.2 c hc
    rw [hk2] at h0
    exact hK (List.elem_eq_true_of_mem h0)
  · intro c hc
    rcases List.mem_append.1 hc with hin | hnew
    · exact List.mem_append.2 (Or.inl (hinv.2 c hin))
    · rcases List.mem_singleton.1 hnew with rfl
      exact List.mem_append.2 (Or.inr (List.mem_singleton.2 rfl))
  · intro k hk
    exact List.mem_append.2 (Or.inl hk)
  · rw [List.map_append]
    refine List.Nodup.append hinv.1 (List.nodup_singleton _) ?_
    intro k hk1 hk2
    rcases List.mem_map.1 hk1 with ⟨c, hc, rfl⟩
    rw [List.map_singleton, List.mem_singleton] at hk2
    have h0 := hinv.2 c hc
    rw [hk2] at h0
    exact hK (List.elem_eq_true_of_mem h0)
  · intro c hc
    rcases List.mem_append.1 hc with hin | hnew
    · exact List.mem_append.2 (Or.inl (hinv.2 c hin))
    · rcases List.mem_singleton.1 hnew with rfl
      exact List.mem_append.2 (Or.inr (List.mem_singleton.2 rfl))
  · intro k hk
    exact List.mem_append.2 (Or.inl hk)

theorem keysInv_foldl_considerOperation (invoiceDate : Option ℤ)
    (invoiceNumber invoiceNumberDigits clientName : String) (target : ℚ × String)
    (ops : List LoadedOperation) :
    ∀ (st : List String × List MatchCandidate), keysInv st →
      keysInv (ops.foldl (considerOperation invoiceDate invoiceNumber invoiceNumberDigits
        clientName target) st) := by
  induction ops with
  | nil => intro st h; exact h
  | cons op rest ih =>
    intro st h
    exact ih _ (keysInv_considerOperation invoiceDate invoiceNumber invoiceNumberDigits
      clientName target st op h).1

theorem keysInv_foldl_targets (invoiceDate : Option ℤ)
    (invoiceNumber invoiceNumberDigits clientName : String)
    (targets : List (ℚ × String)) (ops : List LoadedOperation) :
    ∀ (st : List String × List MatchCandidate), keysInv st →
      keysInv (targets.foldl (fun st target =>
        ops.foldl (considerOperation invoiceDate invoiceNumber invoiceNumberDigits
          clientName target) st) st) := by
  induction targets with
  | nil => intro st h; exact h
  | cons t rest ih =>
    intro st h
    exact ih _ (keysInv_foldl_considerOperation invoiceDate invoiceNumber
      invoiceNumberDigits clientName t ops st h)

/-- The candidate list the matcher returns carries pairwise-distinct dedup
keys (`statementId : sequence-or-fallback : target label`). -/
theorem findMatchesList_keys_nodup (invoice : Invoice) (ops : List LoadedOperation) :
    ((findMatchesList invoice ops).map candKey).Nodup := by
  simp only [findMatchesList]
  have hinv := keysInv_foldl_targets
    (match parseDate invoice.invoice_date with
     | some d => some d
     | none => parseDate invoice.due_date)
    (sanitize (jsOrSS invoice.invoice_number invoice.number))
    (if sanitize (jsOrSS invoice.invoice_number invoice.number) ≠ "" then
      (⟨(sanitize (jsOrSS invoice.invoice_number invoice.number)).data.filter Char.isDigit⟩ :
        String)
     else "")
    (invoice.clientName.getD "")
    (invoiceTargets (jsOrQ (parseNumber invoice.amount) 0)
      (jsOrQ (parseNumber invoice.amount) 0 - jsOrQ (parseNumber invoice.balance) 0))
    ops ([], []) ⟨List.nodup_nil, by intro c hc; exact absurd hc (List.not_mem_nil c)⟩
  rw [List.map_take]
  refine List.Nodup.sublist (List.take_sublist 5 _) ?_
  exact (((List.perm_insertionSort candLE _).map candKey).nodup_iff).2 hinv.1

/-- With a same-day match and the maximal reference score, the confidence
formula yields at least 80 whatever the name score and target label: the worst
case is 50 + 30 + 15 − 2 − 5 = 88. -/
theorem computeConfidence_same_day_ref3 (nameScore : ℤ) (targetLabel : String) :
    80 ≤ computeConfidence (some 0) 3 nameScore targetLabel := by
  simp only [computeConfidence]
  norm_num
  split_ifs <;> norm_num [jsRound]

/-- Sample operation constructor shared by the concrete instances below. -/
def sampleOperation (seqv : String) (amt : ℚ) (bd : Option String)
    (comm cn : Option String) : LoadedOperation :=
  { statementId := "S1", statementFile := "s1.json", accountIban := "BE68539007547034",
    accountName := none, statementYear := some "2024", statementNumber := some "7",
    sequence := seqv, title := "SEPA CREDIT TRANSFER", bookingDate := bd,
    executionDate := none, valueDate := none, amount := amt, currency := some "EUR",
    direction := some "credit", communication := comm, bankReference := none,
    orderReference := none, counterpartyAccount := none, counterpartyBic := none,
    counterpartyName := cn, counterpartyAddress := none }

/-- A default candidate used only as the `headD` fallback of concrete
instances. -/
def dummyCandidate : MatchCandidate :=
  { targetLabel := "", operation := sampleOperation "0000" 0 none none none,
    daysDiff := none, refScore := 0, nameScore := 0, confidence := 0 }

/-! ## Lemmas about value-line parsing -/

theorem mem_of_mem_dropWhile {p : Char → Bool} {l : List Char} {c : Char}
    (h : c ∈ l.dropWhile p) : c ∈ l := by
  induction l with
  | nil => exact h
  | cons a t ih =>
    by_cases hp : p a
    · rw [List.dropWhile_cons, if_pos hp] at h
      exact List.mem_cons_of_mem a (ih h)
    · rw [List.dropWhile_cons, if_neg hp] at h
      exact h

theorem mem_replaceFirstComma {l : List Char} {c : Char}
    (h : c ∈ replaceFirstComma l) : c ∈ l ∨ c = '.' := by
  induction l with
  | nil => exact absurd h (List.not_mem_nil c)
  | cons a t ih =>
    simp only [replaceFirstComma] at h
    by_cases ha : a = ','
    · rw [if_pos ha] at h
      rcases List.mem_cons.1 h with rfl | hin
      · exact Or.inr rfl
      · exact Or.inl (List.mem_cons_of_mem a hin)
    · rw [if_neg ha] at h
      rcases List.mem_cons.1 h with rfl | hin
      · exact Or.inl (List.mem_cons_self c t)
      · rcases ih hin with hin2 | heq
        · exact Or.inl (List.mem_cons_of_mem a hin2)
        · exact Or.inr heq

theorem jsParseFloat_nonneg {s : String} (hnd : '-' ∉ s.data) :
    ∀ q, jsParseFloat s = some q → 0 ≤ q := by
  intro q h
  have hn : (s.data.dropWhile Char.isWhitespace).head? ≠ some '-' := by
    intro hh
    rcases hl : s.data.dropWhile Char.isWhitespace with _ | ⟨a, t⟩
    · rw [hl] at hh
      exact Option.noConfusion hh
    · rw [hl] at hh
      have ha : a = '-' := Option.some.inj hh
      subst ha
      refine hnd (mem_of_mem_dropWhile (p := Char.isWhitespace) ?_)
      rw [hl]
      exact List.mem_cons_self _ t
  simp only [jsParseFloat] at h
  rw [if_neg hn] at h
  split_ifs at h <;> try exact Option.noConfusion h
  all_goals
    have hq := (Option.some.inj h).symm
    rw [hq]
    positivity

theorem parseEuropeanNumber_nonneg {raw : String} (hnd : '-' ∉ raw.data) :
    0 ≤ parseEuropeanNumber raw := by
  simp only [parseEuropeanNumber]
  split_ifs with h0
  · exact le_refl 0
  · rcases hf : jsParseFloat
        ⟨replaceFirstComma ((raw.data.filter (fun c => c ≠ '.')).filter
          (fun c => !c.isWhitespace))⟩ with _ | q
    · exact le_refl 0
    · refine jsParseFloat_nonneg ?_ q hf
      intro hmem
      rcases mem_replaceFirstComma hmem with hin | heq
      · exact hnd (List.mem_of_mem_filter (List.mem_of_mem_filter hin))
      · exact absurd heq (by decide)

theorem valueLineTail_amount_no_minus (d m : String) (yy : Option String) (rest : List Char)
    {day mon : String} {y : Option String} {amt : String} {sign : Char}
    (h : valueLineTail d m yy rest = some (day, mon, y, amt, sign)) :
    '-' ∉ amt.data := by
  simp only [valueLineTail] at h
  split_ifs at h
  split at h <;> try exact Option.noConfusion h
  all_goals
    have he := Option.some.inj h
    simp only [Prod.mk.injEq] at he
    have hamt := he.2.2.2.1
    rw [← hamt]
    intro hmem
    have := List.mem_takeWhile_imp hmem
    simp [amtChar] at this

theorem valueLineMatch_amount_no_minus {s : String} {day mon : String} {y : Option String}
    {amt : String} {sign : Char}
    (h : valueLineMatch s = some (day, mon, y, amt, sign)) : '-' ∉ amt.data := by
  simp only [valueLineMatch] at h
  repeat
    first
    | exact valueLineTail_amount_no_minus _ _ _ _ h
    | exact Option.noConfusion h
    | split at h
    | split_ifs at h

theorem parseValueLine_sign_facts (line bookingDate currency : Option String) :
    ((parseValueLine line bookingDate currency).direction = some "credit" →
      ∃ a, (parseValueLine line bookingDate currency).amount = some a ∧ 0 ≤ a) ∧
    ((parseValueLine line bookingDate currency).direction = some "debit" →
      ∃ a, (parseValueLine line bookingDate currency).amount = some a ∧ a ≤ 0) ∧
    (∀ a, (parseValueLine line bookingDate currency).amount = some a → a ≠ 0 →
      ((parseValueLine line bookingDate currency).direction = some "credit" ↔ 0 < a)) := by
  rcases line with _ | l
  · simp [parseValueLine]
  · rcases hm : valueLineMatch l with _ | ⟨day, mon, y, amt, sign⟩
    · simp [parseValueLine, hm]
    · have hnn : 0 ≤ parseEuropeanNumber amt :=
        parseEuropeanNumber_nonneg (valueLineMatch_amount_no_minus hm)
      simp only [parseValueLine, hm]
      by_cases hs : sign = '-'
      · rw [if_pos hs, if_pos hs]
        refine ⟨?_, ?_, ?_⟩
        · intro hdir
          exact absurd (Option.some.inj hdir) (by decide)
        · intro _
          exact ⟨-(parseEuropeanNumber amt), rfl, neg_nonpos.mpr hnn⟩
        · intro a ha hne
          constructor
          · intro hdir
            exact absurd (Option.some.inj hdir) (by decide)
          · intro hpos
            have haq : a = -(parseEuropeanNumber amt) := (Option.some.inj ha).symm
            rw [haq] at hpos
            exact absurd hpos (not_lt.mpr (neg_nonpos.mpr hnn))
      · rw [if_neg hs, if_neg hs]
        refine ⟨?_, ?_, ?_⟩
        · intro _
          exact ⟨parseEuropeanNumber amt, rfl, hnn⟩
        · intro hdir
          exact absurd (Option.some.inj hdir) (by decide)
        · intro a ha hne
          have haq : a = parseEuropeanNumber amt := (Option.some.inj ha).symm
          constructor
          · intro _
            rw [haq]
            exact lt_of_le_of_ne hnn (fun h0 => hne (by rw [haq, ← h0]))
          · intro _
            rfl

theorem inferValueDate_year_rule (day month ys bd : String) (yb mb mv : ℤ) :
    (ys ≠ "" → ∀ bd0 : Option String,
      inferValueDate day month (some ys) bd0 = some (ys ++ "-" ++ month ++ "-" ++ day)) ∧
    (bd ≠ "" → jsParseIntO (bd.splitOn "-")[0]? = some yb →
      jsParseIntO (bd.splitOn "-")[1]? = some mb →
      jsParseInt month = some mv →
      inferValueDate day month none (some bd) =
        some (toString (if mv - mb < -6 then yb + 1
          else if mv - mb > 6 then yb - 1 else yb) ++ "-" ++ month ++ "-" ++ day)) := by
  constructor
  · intro hys bd0
    simp [inferValueDate, jsOrNullStr, hys]
  · intro hbd h0 h1 hm
    simp only [inferValueDate, jsOrNullStr, if_neg hbd, h0, h1, hm]
    by_cases hlt : mv - mb < -6
    · simp [optLtI, optGtI, hlt, intDisplay]
    · by_cases hgt : mv - mb > 6
      · simp [optLtI, optGtI, hlt, hgt, intDisplay]
      · simp [optLtI, optGtI, hlt, hgt, intDisplay]

/-! ## Lemmas about the batch processor -/

theorem processEntry_count (zipPath outputDir : String) (overwrite : Bool) (now : String)
    (st : ZipResult) (e : ZipEntry) :
    (processEntry zipPath outputDir overwrite now st e).statements.length +
      (processEntry zipPath outputDir overwrite now st e).failures.length =
    st.statements.length + st.failures.length + (if zipEntryEligible e then 1 else 0) := by
  simp only [processEntry]
  by_cases he : zipEntryEligible e
  · rw [if_pos he]
    simp only [he, Bool.not_true, Bool.false_eq_true, if_false]
    split <;> simp <;> omega
  · rw [if_neg he]
    simp only [Bool.not_eq_true'] at he
    simp [he]

theorem processZipArchive_foldl_count (zipPath outputDir : String) (overwrite : Bool)
    (now : String) (entries : List ZipEntry) :
    ∀ st : ZipResult,
      (entries.foldl (processEntry zipPath outputDir overwrite now) st).statements.length +
        (entries.foldl (processEntry zipPath outputDir overwrite now) st).failures.length =
      st.statements.length + st.failures.length +
        (entries.filter zipEntryEligible).length := by
  induction entries with
  | nil => intro st; simp
  | cons e rest ih =>
    intro st
    rw [List.foldl_cons, ih, processEntry_count]
    by_cases he : zipEntryEligible e <;> (simp [he]; try omega)

/-! ## Claims -/

set_option maxRecDepth 200000

deriving instance DecidableEq for Except

def c1invoice : Invoice :=
  { amount := some 100, balance := some 100, invoice_date := some "2024-04-04",
    due_date := none, invoice_number := none, number := none, clientName := none }

def c1opNoDate : LoadedOperation := sampleOperation "0021" 100 none none none

def c1opDated : LoadedOperation := sampleOperation "0021" 100 (some "2024-04-07") none none

/-- C1: the spec states that an amount-matching index entry lacking a usable
booking/value date is NOT excluded by the date filter and may still appear as
a candidate with `daysDiff` null.  The code computes `diffDays = Infinity` for
a missing date, and the filter `days > MAX_DATE_DIFF_DAYS` therefore rejects
the entry (the downstream null-`daysDiff` handling in the candidate record,
the comparator and the confidence formula is unreachable under the default
window).  Evaluation at the failing input: an invoice dated 2024-04-04 and an
exactly-matching 100.00 entry without a date produce no candidate, while the
same entry dated three days away is returned. -/
theorem c1_dateless_entry_excluded :
    findMatchesList c1invoice [c1opNoDate] = [] ∧
    (findMatchesList c1invoice [c1opDated]).map (fun c => c.daysDiff) = [some (3 : ℚ)] := by
  with_unfolding_all decide

def c2invoice : Invoice :=
  { amount := some 1500, balance := some 0, invoice_date := some "2024-04-04",
    due_date := none, invoice_number := none, number := none, clientName := none }

def c2op : LoadedOperation := sampleOperation "0022" 1500 (some "2024-04-07") none none

/-- C2 counterexample: for a fully unpaid invoice (`balance = 0`) both targets
have the value of the invoice amount, and the dedup key appends the target
label, so the single matching operation is reported twice for the same
invoice — once per target — refuting the claim that the returned list never
contains the same index entry twice. -/
theorem c2_same_operation_reported_twice :
    (findMatchesList c2invoice [c2op]).map (fun c => (c.operation, c.targetLabel)) =
      [(c2op, "invoice amount"), (c2op, "recorded partial payment")] := by
  with_unfolding_all decide

/-- C2 amended: deduplication is per `(operation key, target label)`: the seen
set stores `statementId:sequence-or-fallback:label`, so no two returned
candidates share both the operation key and the target label, but the same
Operation may be reported once for the full-amount target and once for the
partial-payment target of the same invoice. -/
theorem c2_candidate_keys_nodup (invoice : Invoice) (ops : List LoadedOperation) :
    ((findMatchesList invoice ops).map candKey).Nodup :=
  findMatchesList_keys_nodup invoice ops

def c3lines : List String :=
  ["N° Type d\x27opération", "01-04-2024", "0001 VIREMENT EUROPEEN", "04-04 0,00 +"]

/-- C3 counterexample: a value line with a literal-zero amount and a `+` sign
(`"04-04 0,00 +"`) yields an Operation with `direction = "credit"` and
`amount = 0`, so `direction = "credit" ↔ amount > 0` fails on parser
output exactly at the zero-amount case the claim singles out. -/
theorem c3_zero_amount_credit :
    (extractOperations c3lines (some 0) (some "EUR")).map
        (fun ops => ops.map (fun o => (o.direction, o.amount))) =
      Except.ok [(some "credit", some (0 : ℚ))] ∧ ¬ (0 : ℚ) > 0 := by
  with_unfolding_all decide

/-- C3 amended: the value-line sign determines the direction, so
`direction = "credit"` implies `amount ≥ 0`, `direction = "debit"` implies
`amount ≤ 0`, and the claimed equivalence `direction = "credit" ↔ amount > 0`
holds whenever the parsed amount is nonzero. -/
theorem c3_direction_matches_sign (line bookingDate currency : Option String) :
    ((parseValueLine line bookingDate currency).direction = some "credit" →
      ∃ a, (parseValueLine line bookingDate currency).amount = some a ∧ 0 ≤ a) ∧
    ((parseValueLine line bookingDate currency).direction = some "debit" →
      ∃ a, (parseValueLine line bookingDate currency).amount = some a ∧ a ≤ 0) ∧
    (∀ a, (parseValueLine line bookingDate currency).amount = some a → a ≠ 0 →
      ((parseValueLine line bookingDate currency).direction = some "credit" ↔ 0 < a)) :=
  parseValueLine_sign_facts line bookingDate currency

/-- Witness for the amended C3 theorem at the concrete value line
`"04-04 1500,00 +"`. -/
theorem c3_direction_matches_sign_witness :
    (parseValueLine (some "04-04 1500,00 +") (some "2024-04-01") (some "EUR")).direction =
        some "credit" ↔ 0 < (1500 : ℚ) :=
  (c3_direction_matches_sign (some "04-04 1500,00 +") (some "2024-04-01") (some "EUR")).2.2
    1500 (by with_unfolding_all decide) (by with_unfolding_all decide)

/-- C4: for a value line that omits the year, with booking-date context of
year `yb` and month `mb` and value-line month `mv`, the inferred year is
`yb + 1` when `mv − mb < −6`, `yb − 1` when `mv − mb > 6`, and `yb` otherwise;
an explicit 4-digit year is used verbatim. -/
theorem c4_value_date_year (day month ys bd : String) (yb mb mv : ℤ) :
    (ys ≠ "" → ∀ bd0 : Option String,
      inferValueDate day month (some ys) bd0 = some (ys ++ "-" ++ month ++ "-" ++ day)) ∧
    (bd ≠ "" → jsParseIntO (bd.splitOn "-")[0]? = some yb →
      jsParseIntO (bd.splitOn "-")[1]? = some mb →
      jsParseInt month = some mv →
      inferValueDate day month none (some bd) =
        some (toString (if mv - mb < -6 then yb + 1
          else if mv - mb > 6 then yb - 1 else yb) ++ "-" ++ month ++ "-" ++ day)) :=
  inferValueDate_year_rule day month ys bd yb mb mv

/-- Witness for C4 at a year-rollback input: booking context 2024-01-15 with
value-line month 12 infers 2023-12-31. -/
theorem c4_value_date_year_witness :
    inferValueDate "31" "12" none (some "2024-01-15") = some "2023-12-31" := by
  have h := (c4_value_date_year "31" "12" "x" "2024-01-15" 2024 1 12).2
    (by decide) (by with_unfolding_all decide) (by with_unfolding_all decide)
    (by with_unfolding_all decide)
  rw [h]
  with_unfolding_all decide

/-- C5: every candidate the matcher produces with `daysDiff = 0` and
`refScore = 3` has confidence at least 80, whatever its name score and target
label (worst case 50 + 30 + 15 − 2 − 5 = 88). -/
theorem c5_confidence_at_least_80 (invoice : Invoice) (ops : List LoadedOperation)
    (c : MatchCandidate) (hc : c ∈ findMatchesList invoice ops)
    (hd : c.daysDiff = some 0) (hr : c.refScore = 3) : 80 ≤ c.confidence := by
  have h := (mem_findMatchesList invoice ops c hc).2.2
  rw [h, hd, hr]
  exact computeConfidence_same_day_ref3 c.nameScore c.targetLabel

def c5invoice : Invoice :=
  { amount := some 1500, balance := some 1500, invoice_date := some "2024-04-04",
    due_date := none, invoice_number := some "220006", number := none, clientName := none }

def c5op : LoadedOperation :=
  sampleOperation "0025" 1500 (some "2024-04-04") (some "INV 220006") none

/-- Witness for C5: a same-day 1500.00 operation whose communication contains
the digit form of invoice number 220006. -/
theorem c5_confidence_at_least_80_witness :
    80 ≤ ((findMatchesList c5invoice [c5op]).headD dummyCandidate).confidence :=
  c5_confidence_at_least_80 c5invoice [c5op] _ (by with_unfolding_all decide)
    (by with_unfolding_all decide) (by with_unfolding_all decide)

/-- C6: rebuilding the aggregated operations index from the same statements is
deterministic: the `operations` array is a pure function of the statements and
does not depend on the build clock, which only stamps the top-level
`generatedAt` field — the sole permitted difference between two runs. -/
theorem c6_rebuild_deterministic (statements : List ProcessedStatement) (t1 t2 : String) :
    (emitAggregatedIndex statements t1).operations =
      (emitAggregatedIndex statements t2).operations ∧
    (emitAggregatedIndex statements t1).generatedAt = t1 :=
  ⟨rfl, rfl⟩

def c7badEntry : ZipEntry :=
  { entryName := "bad.pdf", isDirectory := false,
    textLines := ["hello world", "nothing here"] }

def c7goodEntry : ZipEntry :=
  { entryName := "doc1.pdf", isDirectory := false,
    textLines :=
      ["Compte à vue", "BE68 5390 0754 7034 EUR", "BIC GKCCBEBB",
       "Extrait N° 2024 - 7", "Solde précédent au 01-03-2024 1.000,00 +",
       "N° Type d\x27opération", "Date", "01-04-2024",
       "0015 SEPA CREDIT TRANSFER", "Communication: INV 220006",
       "04-04 1.500,00 +", "Solde actuel au 30-04-2024 2.500,00 +"] }

/-- C7: per-document failures are isolated.  In general, every eligible entry
of a batch contributes exactly one statement or one failure (so a ParseError
aborts only its own document), and the process-level exit signal is nonzero
exactly when at least one failure was recorded.  Concretely, a batch whose
first document lacks an account anchor records that one failure with the
ParseError message and still parses the second document fully, with exit
signal 1. -/
theorem c7_failures_isolated :
    (∀ (zipPath outputDir now : String) (overwrite : Bool) (entries : List ZipEntry)
        (fsPaths : List String),
      (processZipArchive zipPath entries overwrite outputDir now fsPaths).statements.length +
          (processZipArchive zipPath entries overwrite outputDir now fsPaths).failures.length =
        (entries.filter zipEntryEligible).length ∧
      (batchExitCode (processZipArchive zipPath entries overwrite outputDir now
          fsPaths).failures = 1 ↔
        (processZipArchive zipPath entries overwrite outputDir now fsPaths).failures ≠ [])) ∧
    (processZipArchive "a.zip" [c7badEntry, c7goodEntry] false "out" "T" []).failures.map
        (fun f => (f.entryName, f.error)) =
      [("bad.pdf", "Unable to locate account IBAN line in statement.")] ∧
    (processZipArchive "a.zip" [c7badEntry, c7goodEntry] false "out" "T" []).statements.map
        (fun s => (s.statementId, s.operations.length)) = [("547034-2024-007", 1)] ∧
    batchExitCode
      (processZipArchive "a.zip" [c7badEntry, c7goodEntry] false "out" "T" []).failures = 1 := by
  refine ⟨fun zipPath outputDir now overwrite entries fsPaths => ⟨?_, ?_⟩, ?_, ?_, ?_⟩
  · have h := processZipArchive_foldl_count zipPath outputDir overwrite now entries
      { statements := [], failures := [], fsPaths }
    simpa [processZipArchive] using h
  · rcases h : (processZipArchive zipPath entries overwrite outputDir now fsPaths).failures
      with _ | ⟨f, t⟩ <;> simp [batchExitCode, h]
  · with_unfolding_all decide
  · with_unfolding_all decide
  · with_unfolding_all decide

def c8invoice : Invoice :=
  { amount := some 100, balance := some 100, invoice_date := some "2024-01-01",
    due_date := none, invoice_number := none, number := none, clientName := none }

def c8op120 : LoadedOperation := sampleOperation "0028" 100 (some "2024-04-30") none none

def c8op121 : LoadedOperation := sampleOperation "0028" 100 (some "2024-05-01") none none

/-- C8: with the default 120-day window, an amount-matching operation exactly
120 days from the invoice date (2024-01-01 vs 2024-04-30) is included in the
candidate set, and one 121 days away (2024-05-01) is excluded. -/
theorem c8_window_boundary :
    (findMatchesList c8invoice [c8op120]).map (fun c => (c.operation, c.daysDiff)) =
      [(c8op120, some (120 : ℚ))] ∧
    findMatchesList c8invoice [c8op121] = [] := by
  with_unfolding_all decide

def c9invoice : Invoice :=
  { amount := none, balance := some 50, invoice_date := some "2024-01-01",
    due_date := none, invoice_number := none, number := none, clientName := none }

def c9op : LoadedOperation := sampleOperation "0029" 100 (some "2024-01-01") none none

/-- C9 counterexample: an Invoice missing a usable amount does not make the
matcher raise — `parseNumber` yields null, `|| 0` coerces it to 0, the target
list is empty and the matcher returns an ordinary empty result. -/
theorem c9_missing_amount_no_error :
    findMatchesForInvoice c9invoice [c9op] = Except.ok [] := by
  with_unfolding_all decide

/-- C9 amended: the matcher never throws at all — for every invoice and every
operation list it returns `Except.ok`, the empty list being the "no match"
representation; in particular an invoice without a usable amount produces an
empty result rather than an error. -/
theorem c9_matcher_never_throws (invoice : Invoice) (ops : List LoadedOperation) :
    ∃ cs, findMatchesForInvoice invoice ops = Except.ok cs :=
  ⟨findMatchesList invoice ops, rfl⟩

/-- C10: candidates only ever wrap operations drawn from the list given to the
matcher, and every operation surviving `loadOperations` comes from an index
entry whose direction sanitizes to "credit" and whose amount is non-null; a
debit or null-amount entry is dropped before matching and can never be
reported. -/
theorem c10_credit_entries_only :
    (∀ (invoice : Invoice) (ops : List LoadedOperation) (c : MatchCandidate),
        c ∈ findMatchesList invoice ops → c.operation ∈ ops) ∧
    (∀ (entries : List IndexEntry) (o : LoadedOperation), o ∈ loadOperations entries →
        jsToLower (sanitize o.direction) = "credit" ∧
        ∃ e, e ∈ entries ∧ e.amount.isSome ∧ o = mapLoadedEntry e) := by
  constructor
  · intro invoice ops c hc
    exact (mem_findMatchesList invoice ops c hc).1
  · intro entries o ho
    simp only [loadOperations, List.mem_map, List.mem_filter] at ho
    rcases ho with ⟨e, ⟨he, hf⟩, rfl⟩
    simp only [loadFilter, Bool.and_eq_true, decide_eq_true_eq] at hf
    exact ⟨hf.1, e, he, hf.2, rfl⟩

def c10entry : IndexEntry :=
  { statementId := "S1", statementFile := "s1.json", accountIban := "BE68539007547034",
    accountName := none, statementYear := some "2024", statementNumber := some "7",
    sequence := "0030", title := "SEPA CREDIT TRANSFER", bookingDate := some "2024-04-05",
    executionDate := none, valueDate := none, amount := some 100, currency := some "EUR",
    direction := some "Credit", communication := none, bankReference := none,
    orderReference := none, counterpartyAccount := none, counterpartyBic := none,
    counterpartyName := none, counterpartyAddress := none }

def c10invoice : Invoice :=
  { amount := some 100, balance := some 100, invoice_date := some "2024-04-04",
    due_date := none, invoice_number := none, number := none, clientName := none }

/-- Witness for C10: a loaded "Credit" entry one day from the invoice date is
returned, and its candidate wraps an operation of the loaded list. -/
theorem c10_credit_entries_only_witness :
    ((findMatchesList c10invoice (loadOperations [c10entry])).headD
        dummyCandidate).operation ∈ loadOperations [c10entry] :=
  c10_credit_entries_only.1 c10invoice (loadOperations [c10entry]) _
    (by with_unfolding_all decide)
